import Mathlib

/-!
Shallow embedding of the validation-and-state-transition core of the
TodoListCopilot React component (`TodoListCopilot.jsx`): the functions
`validateAndFormatText`, `isDuplicate`, `addTodo`, `removeTodo`,
`toggleTodo`, `saveEdit`, `getIncompleteTodos`, `getCompletedTodos`.

The component's state `todos` is an array of `{ text, completed }`
objects; each handler reads `todos` and calls `setTodos` with a new
array.  We model this by passing the list explicitly and returning the
new list.  Strings are modelled as `List Char`; array indices are
modelled as `Int` (JavaScript numbers used as indices, which may be
negative).
-/

namespace TodoList

/-- A todo item: `{ text: string, completed: boolean }`. -/
structure Todo where
  text : List Char
  completed : Bool
deriving DecidableEq, Repr

/-- The set of characters matched by the JavaScript regex class `\s`
(and removed from the ends of a string by `String.prototype.trim`):
tab, line feed, vertical tab, form feed, carriage return, space,
no-break space, Ogham space mark, the Unicode space separators
U+2000–U+200A, line separator, paragraph separator, narrow no-break
space, medium mathematical space, ideographic space, and the BOM. -/
def isJsSpace (c : Char) : Bool :=
  c.toNat = 32 || (9 ≤ c.toNat && c.toNat ≤ 13) ||
  c.toNat = 0xa0 || c.toNat = 0x1680 ||
  (0x2000 ≤ c.toNat && c.toNat ≤ 0x200a) ||
  c.toNat = 0x2028 || c.toNat = 0x2029 || c.toNat = 0x202f ||
  c.toNat = 0x205f || c.toNat = 0x3000 || c.toNat = 0xfeff

/-- `text.trim()`: remove leading and trailing whitespace. -/
def trim (s : List Char) : List Char :=
  ((s.dropWhile isJsSpace).reverse.dropWhile isJsSpace).reverse

/-- A character matched by the regex class `[a-zA-Z0-9]` (code points
65–90, 97–122, 48–57). -/
def isAsciiAlphanum (c : Char) : Bool :=
  (65 ≤ c.toNat && c.toNat ≤ 90) || (97 ≤ c.toNat && c.toNat ≤ 122) ||
  (48 ≤ c.toNat && c.toNat ≤ 57)

/-- A character matched by the regex class `[a-zA-Z0-9\s]`, i.e. NOT
matched by the component's validation regex `/[^a-zA-Z0-9\s]/`. -/
def allowedChar (c : Char) : Bool :=
  isAsciiAlphanum c || isJsSpace c

/-- `/[^a-zA-Z0-9\s]/.test(s)`. -/
def hasInvalidChar (s : List Char) : Bool :=
  s.any (fun c => !allowedChar c)

/-- `s.replace(/[^a-zA-Z0-9\s]/g, '')`. -/
def stripInvalid (s : List Char) : List Char :=
  s.filter allowedChar

/-- Per-character model of `String.prototype.toLowerCase` on the code
points reachable here (ASCII alphanumerics and whitespace, on which
the full Unicode lowering acts exactly like the ASCII one). -/
def jsToLower (c : Char) : Char :=
  if 65 ≤ c.toNat && c.toNat ≤ 90 then Char.ofNat (c.toNat + 32) else c

/-- Per-character model of `String.prototype.toUpperCase` on the code
points reachable here. -/
def jsToUpper (c : Char) : Char :=
  if 97 ≤ c.toNat && c.toNat ≤ 122 then Char.ofNat (c.toNat - 32) else c

/-- `s.toLowerCase()`. -/
def lower (s : List Char) : List Char :=
  s.map jsToLower

/-- `s.charAt(0).toUpperCase() + s.slice(1).toLowerCase()`. -/
def formatText (s : List Char) : List Char :=
  match s with
  | [] => []
  | c :: cs => jsToUpper c :: cs.map jsToLower

/-- Result object of `validateAndFormatText`:
`{ isValid, formattedText, message }`. -/
structure ValidationResult where
  isValid : Bool
  formattedText : List Char
  message : String
deriving DecidableEq, Repr

/-- Validation message shown when the trimmed input is empty. -/
def emptyMessage : String := "Please enter a todo item"

/-- Validation message shown when the input has a character outside
the class `[a-zA-Z0-9\s]`. -/
def invalidCharactersMessage : String := "Only letters, numbers, and spaces are allowed"

/-- Validation message shown when the formatted text collides with an
existing item. -/
def duplicateItemMessage : String := "This todo item already exists"

/-- `isDuplicate(text, excludeIndex)`: `todos.some((todo, index) =>
index !== excludeIndex && todo.text.toLowerCase() === text.toLowerCase())`. -/
def isDuplicate (todos : List Todo) (text : List Char) (excludeIndex : Int) : Bool :=
  todos.enum.any (fun p => ((p.1 : Int) != excludeIndex) && lower p.2.text == lower text)

/-- `validateAndFormatText(text, excludeIndex = -1)` from the source:
trim, reject empty, reject on `/[^a-zA-Z0-9\s]/`, strip the same class,
capitalise the first character and lower-case the rest, reject
duplicates, otherwise succeed with the formatted text. -/
def validateAndFormatText (todos : List Todo) (text : List Char)
    (excludeIndex : Int) : ValidationResult :=
  let trimmedText := trim text
  if trimmedText = [] then
    ⟨false, [], emptyMessage⟩
  else if hasInvalidChar trimmedText then
    ⟨false, [], invalidCharactersMessage⟩
  else
    let alphanumericOnly := stripInvalid trimmedText
    let formattedText := formatText alphanumericOnly
    if isDuplicate todos formattedText excludeIndex then
      ⟨false, [], duplicateItemMessage⟩
    else
      ⟨true, formattedText, ""⟩

/-- `addTodo`: validate the input (no exclusion, default `-1`); on
failure keep `todos`; on success `setTodos([...todos, { text:
result.formattedText, completed: false }])`.  Returns the validation
result together with the new collection. -/
def addTodo (todos : List Todo) (input : List Char) : ValidationResult × List Todo :=
  let result := validateAndFormatText todos input (-1)
  if result.isValid then
    (result, todos ++ [⟨result.formattedText, false⟩])
  else
    (result, todos)

/-- `removeTodo(index)`: `setTodos(todos.filter((_, i) => i !== index))`. -/
def removeTodo (todos : List Todo) (index : Int) : List Todo :=
  (todos.enum.filter (fun p => (p.1 : Int) != index)).map Prod.snd

/-- `toggleTodo(index)`: `setTodos(todos.map((todo, i) => i === index ?
{ ...todo, completed: !todo.completed } : todo))`. -/
def toggleTodo (todos : List Todo) (index : Int) : List Todo :=
  todos.enum.map (fun p =>
    if (p.1 : Int) = index then { p.2 with completed := !p.2.completed } else p.2)

/-- `saveEdit(index)`: validate the edit input excluding `index`; on
failure keep `todos`; on success `setTodos(todos.map((todo, i) => i ===
index ? { ...todo, text: result.formattedText } : todo))`. -/
def saveEdit (todos : List Todo) (index : Int) (editInput : List Char) :
    ValidationResult × List Todo :=
  let result := validateAndFormatText todos editInput index
  if result.isValid then
    (result, todos.enum.map (fun p =>
      if (p.1 : Int) = index then { p.2 with text := result.formattedText } else p.2))
  else
    (result, todos)

/-- `getIncompleteTodos()`: `todos.filter(todo => !todo.completed)`. -/
def getIncompleteTodos (todos : List Todo) : List Todo :=
  todos.filter (fun todo => !todo.completed)

/-- `getCompletedTodos()`: `todos.filter(todo => todo.completed)`. -/
def getCompletedTodos (todos : List Todo) : List Todo :=
  todos.filter (fun todo => todo.completed)

/-- One user-level operation on the store, as dispatched by the
component's handlers. -/
inductive Op where
  | add (input : List Char)
  | edit (index : Int) (input : List Char)
  | toggle (index : Int)
  | delete (index : Int)
deriving DecidableEq, Repr

/-- The collection produced by one operation. -/
def applyOp (todos : List Todo) : Op → List Todo
  | .add input => (addTodo todos input).2
  | .edit index input => (saveEdit todos index input).2
  | .toggle index => toggleTodo todos index
  | .delete index => removeTodo todos index

/-- The collection reached from the initial state `useState([])` by a
sequence of operations. -/
def run (ops : List Op) : List Todo :=
  ops.foldl applyOp []

/-- The spec's character class `[A-Za-z0-9 ]`: letters, digits and the
space character only (stated from the spec, for comparison with the
code's class `[a-zA-Z0-9\s]`). -/
def isSpecAllowed (c : Char) : Bool :=
  isAsciiAlphanum c || c = ' '

/-- No two items have case-insensitively equal text. -/
def distinctTexts (todos : List Todo) : Prop :=
  todos.Pairwise (fun a b => lower a.text ≠ lower b.text)

instance : DecidablePred distinctTexts := fun todos =>
  List.instDecidablePairwise todos

/-- Every item's text is non-empty and contains only characters from
the code's class `[a-zA-Z0-9\s]`. -/
def validTexts (todos : List Todo) : Prop :=
  ∀ t ∈ todos, t.text ≠ [] ∧ ∀ c ∈ t.text, allowedChar c = true

/-- The spec's stronger claimed invariant: every item's text is
non-empty and contains only characters from `[A-Za-z0-9 ]`. -/
def specValidTexts (todos : List Todo) : Prop :=
  ∀ t ∈ todos, t.text ≠ [] ∧ ∀ c ∈ t.text, isSpecAllowed c = true

instance : DecidablePred validTexts := fun todos => by
  unfold validTexts; infer_instance

instance : DecidablePred specValidTexts := fun todos => by
  unfold specValidTexts; infer_instance

/-! ### Character-level lemmas -/

theorem toNat_ofNat_small (m : Nat) (h : m < 55296) : (Char.ofNat m).toNat = m := by
  have hv : Nat.isValidChar m := Or.inl h
  simp [Char.ofNat, hv, Char.ofNatAux, Char.toNat, UInt32.ofNat', BitVec.ofNatLt]
  rfl

theorem allowedChar_jsToLower (c : Char) (h : allowedChar c = true) :
    allowedChar (jsToLower c) = true := by
  unfold jsToLower
  split
  · next hc =>
    simp only [Bool.and_eq_true, decide_eq_true_eq] at hc
    have h1 : (Char.ofNat (c.toNat + 32)).toNat = c.toNat + 32 :=
      toNat_ofNat_small _ (by omega)
    simp only [allowedChar, isAsciiAlphanum, isJsSpace, h1, Bool.or_eq_true,
      Bool.and_eq_true, decide_eq_true_eq]
    omega
  · exact h

theorem allowedChar_jsToUpper (c : Char) (h : allowedChar c = true) :
    allowedChar (jsToUpper c) = true := by
  unfold jsToUpper
  split
  · next hc =>
    simp only [Bool.and_eq_true, decide_eq_true_eq] at hc
    have h1 : (Char.ofNat (c.toNat - 32)).toNat = c.toNat - 32 :=
      toNat_ofNat_small _ (by omega)
    simp only [allowedChar, isAsciiAlphanum, isJsSpace, h1, Bool.or_eq_true,
      Bool.and_eq_true, decide_eq_true_eq]
    omega
  · exact h

theorem formatText_allowed (s : List Char) (hs : ∀ c ∈ s, allowedChar c = true) :
    ∀ c ∈ formatText s, allowedChar c = true := by
  cases s with
  | nil => intro c hc; cases hc
  | cons a as =>
    intro c hc
    rw [formatText] at hc
    rcases List.mem_cons.mp hc with h | h
    · subst h; exact allowedChar_jsToUpper a (hs a (List.mem_cons_self a as))
    · obtain ⟨b, hb, rfl⟩ := List.mem_map.mp h
      exact allowedChar_jsToLower b (hs b (List.mem_cons_of_mem a hb))

theorem formatText_ne_nil (s : List Char) (hs : s ≠ []) : formatText s ≠ [] := by
  cases s with
  | nil => exact absurd rfl hs
  | cons a as => simp [formatText]

theorem hasInvalidChar_eq_false_iff (s : List Char) :
    hasInvalidChar s = false ↔ ∀ c ∈ s, allowedChar c = true := by
  simp [hasInvalidChar, List.any_eq_false]

theorem stripInvalid_of_allowed (s : List Char) (hs : ∀ c ∈ s, allowedChar c = true) :
    stripInvalid s = s :=
  List.filter_eq_self.mpr hs

theorem specAllowed_allowed (c : Char) (h : isSpecAllowed c = true) :
    allowedChar c = true := by
  simp only [isSpecAllowed, Bool.or_eq_true, decide_eq_true_eq] at h
  rcases h with h | h
  · simp [allowedChar, h]
  · subst h; rfl

/-! ### Case analysis of `validateAndFormatText` -/

theorem validate_empty (todos : List Todo) (text : List Char) (k : Int)
    (h : trim text = []) :
    validateAndFormatText todos text k = ⟨false, [], emptyMessage⟩ := by
  simp [validateAndFormatText, h]

theorem validate_invalidChars (todos : List Todo) (text : List Char) (k : Int)
    (h1 : trim text ≠ []) (h2 : hasInvalidChar (trim text) = true) :
    validateAndFormatText todos text k = ⟨false, [], invalidCharactersMessage⟩ := by
  simp [validateAndFormatText, h1, h2]

theorem validate_dup (todos : List Todo) (text : List Char) (k : Int)
    (h1 : trim text ≠ []) (h2 : hasInvalidChar (trim text) = false)
    (h3 : isDuplicate todos (formatText (stripInvalid (trim text))) k = true) :
    validateAndFormatText todos text k = ⟨false, [], duplicateItemMessage⟩ := by
  simp [validateAndFormatText, h1, h2, h3]

theorem validate_success (todos : List Todo) (text : List Char) (k : Int)
    (h1 : trim text ≠ []) (h2 : hasInvalidChar (trim text) = false)
    (h3 : isDuplicate todos (formatText (stripInvalid (trim text))) k = false) :
    validateAndFormatText todos text k
      = ⟨true, formatText (stripInvalid (trim text)), ""⟩ := by
  simp [validateAndFormatText, h1, h2, h3]

theorem validate_isValid_spec (todos : List Todo) (text : List Char) (k : Int)
    (h : (validateAndFormatText todos text k).isValid = true) :
    trim text ≠ [] ∧ hasInvalidChar (trim text) = false ∧
    isDuplicate todos (formatText (stripInvalid (trim text))) k = false ∧
    validateAndFormatText todos text k
      = ⟨true, formatText (stripInvalid (trim text)), ""⟩ := by
  by_cases h1 : trim text = []
  · rw [validate_empty todos text k h1] at h; cases h
  by_cases h2 : hasInvalidChar (trim text) = true
  · rw [validate_invalidChars todos text k h1 h2] at h; cases h
  rw [Bool.not_eq_true] at h2
  by_cases h3 : isDuplicate todos (formatText (stripInvalid (trim text))) k = true
  · rw [validate_dup todos text k h1 h2 h3] at h; cases h
  rw [Bool.not_eq_true] at h3
  exact ⟨h1, h2, h3, validate_success todos text k h1 h2 h3⟩

/-! ### Index-level characterisations of the map/filter operations -/

theorem toggleTodo_getElem? (todos : List Todo) (k : Int) (j : Nat) :
    (toggleTodo todos k)[j]? =
      todos[j]?.map
        (fun t => if (j : Int) = k then { t with completed := !t.completed } else t) := by
  unfold toggleTodo
  rw [List.getElem?_map, List.getElem?_enum, Option.map_map]
  cases todos[j]? <;> rfl

theorem editList_getElem? (todos : List Todo) (k : Int) (fmt : List Char) (j : Nat) :
    (todos.enum.map
        (fun p => if (p.1 : Int) = k then { p.2 with text := fmt } else p.2))[j]? =
      todos[j]?.map (fun t => if (j : Int) = k then { t with text := fmt } else t) := by
  rw [List.getElem?_map, List.getElem?_enum, Option.map_map]
  cases todos[j]? <;> rfl

theorem toggleTodo_length (todos : List Todo) (k : Int) :
    (toggleTodo todos k).length = todos.length := by
  simp [toggleTodo]

theorem editList_length (todos : List Todo) (k : Int) (fmt : List Char) :
    (todos.enum.map
        (fun p => if (p.1 : Int) = k then { p.2 with text := fmt } else p.2)).length
      = todos.length := by
  simp

theorem filter_enumFrom_keep (l : List Todo) (n : Nat) (k : Int)
    (hk : ∀ m : Nat, n ≤ m → m < n + l.length → (m : Int) ≠ k) :
    (List.enumFrom n l).filter (fun p => (p.1 : Int) != k) = List.enumFrom n l := by
  induction l generalizing n with
  | nil => rfl
  | cons x xs ih =>
    rw [List.enumFrom_cons, List.filter_cons]
    have hn : ((n : Int) != k) = true := by
      simp only [bne_iff_ne, Ne]
      exact hk n (Nat.le_refl n) (by simp)
    rw [if_pos hn]
    rw [ih (n + 1) (fun m hm hlt => hk m (by omega) (by simp at hlt ⊢; omega))]

theorem removeTodo_go (l : List Todo) (n i : Nat) :
    ((List.enumFrom n l).filter
        (fun p => (p.1 : Int) != ((n + i : Nat) : Int))).map Prod.snd
      = l.take i ++ l.drop (i + 1) := by
  induction l generalizing n i with
  | nil => simp
  | cons x xs ih =>
    rw [List.enumFrom_cons, List.filter_cons]
    cases i with
    | zero =>
      have hn : ((n : Int) != ((n + 0 : Nat) : Int)) = false := by simp
      rw [hn]
      rw [if_neg (by simp)]
      rw [filter_enumFrom_keep xs (n + 1) _
        (fun m hm hlt => by
          have : n + 0 < m := by omega
          intro hc
          have : (n + 0 : Nat) = m := by exact_mod_cast hc.symm
          omega)]
      simp [List.enumFrom_map_snd]
    | succ j =>
      have hn : ((n : Int) != ((n + (j + 1) : Nat) : Int)) = true := by
        simp only [bne_iff_ne, Ne]
        intro hc
        have : n = n + (j + 1) := by exact_mod_cast hc
        omega
      rw [if_pos hn, List.map_cons]
      rw [show n + (j + 1) = (n + 1) + j by omega]
      rw [ih (n + 1) j]
      simp

theorem removeTodo_eq (todos : List Todo) (i : Nat) :
    removeTodo todos (i : Int) = todos.take i ++ todos.drop (i + 1) := by
  have h := removeTodo_go todos 0 i
  rw [show (0 : Nat) + i = i by omega] at h
  exact h

theorem removeTodo_oor (todos : List Todo) (k : Int)
    (h : k < 0 ∨ (todos.length : Int) ≤ k) : removeTodo todos k = todos := by
  unfold removeTodo
  rw [show todos.enum = List.enumFrom 0 todos from rfl]
  rw [filter_enumFrom_keep todos 0 k
    (fun m hm hlt => by
      intro hc
      subst hc
      simp at hlt
      omega)]
  exact List.enumFrom_map_snd 0 todos

theorem removeTodo_sublist (todos : List Todo) (k : Int) :
    List.Sublist (removeTodo todos k) todos := by
  unfold removeTodo
  have h1 : List.Sublist (todos.enum.filter (fun p => (p.1 : Int) != k)) todos.enum :=
    List.filter_sublist todos.enum
  have h2 := h1.map Prod.snd
  rwa [List.enum_map_snd] at h2

theorem isDuplicate_eq_false_iff (todos : List Todo) (text : List Char) (k : Int) :
    isDuplicate todos text k = false ↔
      ∀ (j : Nat) (hj : j < todos.length),
        (j : Int) ≠ k → lower (todos.get ⟨j, hj⟩).text ≠ lower text := by
  unfold isDuplicate
  rw [List.any_eq_false]
  constructor
  · intro h j hj hjk heq
    have hje : j < todos.enum.length := by simpa using hj
    have hmem : (j, todos.get ⟨j, hj⟩) ∈ todos.enum := by
      rw [List.mem_iff_getElem]
      exact ⟨j, hje, by rw [List.getElem_enum]; rfl⟩
    have hc := h _ hmem
    apply hc
    simp only [Bool.and_eq_true, bne_iff_ne, Ne, beq_iff_eq]
    exact ⟨hjk, heq⟩
  · intro h p hp hc
    obtain ⟨j, hje, hpe⟩ := List.mem_iff_getElem.mp hp
    have hj : j < todos.length := by simpa using hje
    rw [List.getElem_enum] at hpe
    subst hpe
    simp only [Bool.and_eq_true, bne_iff_ne, Ne, beq_iff_eq] at hc
    exact h j hj hc.1 hc.2

theorem toggleTodo_oor (todos : List Todo) (k : Int)
    (h : k < 0 ∨ (todos.length : Int) ≤ k) : toggleTodo todos k = todos := by
  apply List.ext_getElem?
  intro j
  rw [toggleTodo_getElem?]
  cases hj : todos[j]? with
  | none => rfl
  | some t =>
    have hjl : j < todos.length := by
      by_contra hc
      rw [List.getElem?_eq_none (by omega)] at hj
      cases hj
    have hne : (j : Int) ≠ k := by omega
    simp [hne]

theorem editList_oor (todos : List Todo) (k : Int) (fmt : List Char)
    (h : k < 0 ∨ (todos.length : Int) ≤ k) :
    todos.enum.map
        (fun p => if (p.1 : Int) = k then { p.2 with text := fmt } else p.2)
      = todos := by
  apply List.ext_getElem?
  intro j
  rw [editList_getElem?]
  cases hj : todos[j]? with
  | none => rfl
  | some t =>
    have hjl : j < todos.length := by
      by_contra hc
      rw [List.getElem?_eq_none (by omega)] at hj
      cases hj
    have hne : (j : Int) ≠ k := by omega
    simp [hne]

theorem toggleTodo_getElem (todos : List Todo) (k : Int) (j : Nat)
    (hj : j < todos.length) (hj2 : j < (toggleTodo todos k).length) :
    (toggleTodo todos k)[j] =
      if (j : Int) = k then { todos[j] with completed := !(todos[j]).completed }
      else todos[j] := by
  have h1 := toggleTodo_getElem? todos k j
  rw [List.getElem?_eq_getElem hj2, List.getElem?_eq_getElem hj] at h1
  simpa using h1

theorem editList_getElem (todos : List Todo) (k : Int) (fmt : List Char) (j : Nat)
    (hj : j < todos.length)
    (hj2 : j < (todos.enum.map
      (fun p => if (p.1 : Int) = k then { p.2 with text := fmt } else p.2)).length) :
    (todos.enum.map
        (fun p => if (p.1 : Int) = k then { p.2 with text := fmt } else p.2))[j] =
      if (j : Int) = k then { todos[j] with text := fmt } else todos[j] := by
  simp

/-! ### Success and failure forms of `addTodo` and `saveEdit` -/

theorem addTodo_of_valid (todos : List Todo) (input : List Char)
    (h : (validateAndFormatText todos input (-1)).isValid = true) :
    addTodo todos input = (validateAndFormatText todos input (-1),
      todos ++ [⟨(validateAndFormatText todos input (-1)).formattedText, false⟩]) := by
  simp [addTodo, h]

theorem addTodo_of_invalid (todos : List Todo) (input : List Char)
    (h : (validateAndFormatText todos input (-1)).isValid = false) :
    addTodo todos input = (validateAndFormatText todos input (-1), todos) := by
  simp [addTodo, h]

theorem saveEdit_of_valid (todos : List Todo) (k : Int) (editInput : List Char)
    (h : (validateAndFormatText todos editInput k).isValid = true) :
    saveEdit todos k editInput = (validateAndFormatText todos editInput k,
      todos.enum.map (fun p =>
        if (p.1 : Int) = k
        then { p.2 with text := (validateAndFormatText todos editInput k).formattedText }
        else p.2)) := by
  simp [saveEdit, h]

theorem saveEdit_of_invalid (todos : List Todo) (k : Int) (editInput : List Char)
    (h : (validateAndFormatText todos editInput k).isValid = false) :
    saveEdit todos k editInput = (validateAndFormatText todos editInput k, todos) := by
  simp [saveEdit, h]

/-! ### Preservation of the no-duplicates invariant -/

theorem distinctTexts_toggleTodo (todos : List Todo) (k : Int)
    (h : distinctTexts todos) : distinctTexts (toggleTodo todos k) := by
  unfold distinctTexts at h ⊢
  rw [List.pairwise_iff_getElem] at h ⊢
  intro a b ha hb hab
  have hl := toggleTodo_length todos k
  have ha' : a < todos.length := by omega
  have hb' : b < todos.length := by omega
  rw [toggleTodo_getElem todos k a ha' ha, toggleTodo_getElem todos k b hb' hb]
  have := h a b ha' hb' hab
  split <;> split <;> simpa using this

theorem distinctTexts_editList (todos : List Todo) (k : Int) (fmt : List Char)
    (h : distinctTexts todos) (hdup : isDuplicate todos fmt k = false) :
    distinctTexts (todos.enum.map
      (fun p => if (p.1 : Int) = k then { p.2 with text := fmt } else p.2)) := by
  have hiff := (isDuplicate_eq_false_iff todos fmt k).mp hdup
  unfold distinctTexts at h ⊢
  rw [List.pairwise_iff_getElem] at h ⊢
  intro a b ha hb hab
  have hl := editList_length todos k fmt
  have ha' : a < todos.length := by omega
  have hb' : b < todos.length := by omega
  rw [editList_getElem todos k fmt a ha' ha, editList_getElem todos k fmt b hb' hb]
  by_cases hak : (a : Int) = k
  · have hbk : ¬((b : Int) = k) := by omega
    rw [if_pos hak, if_neg hbk]
    have := hiff b hb' (by omega)
    simp only [List.get_eq_getElem] at this
    simpa using fun hc => this hc.symm
  · by_cases hbk : (b : Int) = k
    · rw [if_neg hak, if_pos hbk]
      have := hiff a ha' (by omega)
      simp only [List.get_eq_getElem] at this
      simpa using this
    · rw [if_neg hak, if_neg hbk]
      exact h a b ha' hb' hab

theorem distinctTexts_append_of_not_dup (todos : List Todo) (fmt : List Char)
    (h : distinctTexts todos) (hdup : isDuplicate todos fmt (-1) = false) :
    distinctTexts (todos ++ [⟨fmt, false⟩]) := by
  have hiff := (isDuplicate_eq_false_iff todos fmt (-1)).mp hdup
  unfold distinctTexts at h ⊢
  rw [List.pairwise_append]
  refine ⟨h, List.pairwise_singleton _ _, ?_⟩
  intro a ha b hb
  obtain ⟨j, hj, rfl⟩ := List.mem_iff_getElem.mp ha
  have hbe : b = ⟨fmt, false⟩ := by simpa using hb
  subst hbe
  have := hiff j hj (by omega)
  simpa using this

theorem distinctTexts_applyOp (todos : List Todo) (op : Op)
    (h : distinctTexts todos) : distinctTexts (applyOp todos op) := by
  cases op with
  | add input =>
    show distinctTexts (addTodo todos input).2
    by_cases hv : (validateAndFormatText todos input (-1)).isValid = true
    · rw [addTodo_of_valid todos input hv]
      obtain ⟨h1, h2, h3, h4⟩ := validate_isValid_spec todos input (-1) hv
      rw [h4]
      exact distinctTexts_append_of_not_dup todos _ h h3
    · rw [addTodo_of_invalid todos input (by simpa using hv)]
      exact h
  | edit k input =>
    show distinctTexts (saveEdit todos k input).2
    by_cases hv : (validateAndFormatText todos input k).isValid = true
    · rw [saveEdit_of_valid todos k input hv]
      obtain ⟨h1, h2, h3, h4⟩ := validate_isValid_spec todos input k hv
      refine distinctTexts_editList todos k _ h ?_
      rw [h4]
      exact h3
    · rw [saveEdit_of_invalid todos k input (by simpa using hv)]
      exact h
  | toggle k => exact distinctTexts_toggleTodo todos k h
  | delete k =>
    exact List.Pairwise.sublist (removeTodo_sublist todos k) h

theorem distinctTexts_run_from (ops : List Op) (todos : List Todo)
    (h : distinctTexts todos) : distinctTexts (ops.foldl applyOp todos) := by
  induction ops generalizing todos with
  | nil => exact h
  | cons op ops ih =>
    rw [List.foldl_cons]
    exact ih (applyOp todos op) (distinctTexts_applyOp todos op h)

/-! ### Preservation of the well-formed-text invariant -/

theorem fmt_valid (input : List Char)
    (h1 : trim input ≠ []) (h2 : hasInvalidChar (trim input) = false) :
    formatText (stripInvalid (trim input)) ≠ [] ∧
    ∀ c ∈ formatText (stripInvalid (trim input)), allowedChar c = true := by
  have hall := (hasInvalidChar_eq_false_iff (trim input)).mp h2
  have hstrip := stripInvalid_of_allowed (trim input) hall
  rw [hstrip]
  exact ⟨formatText_ne_nil _ h1, formatText_allowed _ hall⟩

theorem validTexts_applyOp (todos : List Todo) (op : Op)
    (h : validTexts todos) : validTexts (applyOp todos op) := by
  cases op with
  | add input =>
    show validTexts (addTodo todos input).2
    by_cases hv : (validateAndFormatText todos input (-1)).isValid = true
    · rw [addTodo_of_valid todos input hv]
      obtain ⟨h1, h2, h3, h4⟩ := validate_isValid_spec todos input (-1) hv
      rw [h4]
      intro t ht
      rcases List.mem_append.mp ht with hmem | hmem
      · exact h t hmem
      · have : t = ⟨formatText (stripInvalid (trim input)), false⟩ := by simpa using hmem
        subst this
        exact fmt_valid input h1 h2
    · rw [addTodo_of_invalid todos input (by simpa using hv)]
      exact h
  | edit k input =>
    show validTexts (saveEdit todos k input).2
    by_cases hv : (validateAndFormatText todos input k).isValid = true
    · rw [saveEdit_of_valid todos k input hv]
      obtain ⟨h1, h2, h3, h4⟩ := validate_isValid_spec todos input k hv
      dsimp only
      intro t ht
      obtain ⟨j, hj, hje⟩ := List.mem_iff_getElem.mp ht
      have hj' : j < todos.length := by simpa using hj
      rw [editList_getElem todos k _ j hj' hj] at hje
      subst hje
      split
      · constructor
        · rw [h4]
          exact (fmt_valid input h1 h2).1
        · rw [h4]
          exact (fmt_valid input h1 h2).2
      · exact h _ (List.getElem_mem hj')
    · rw [saveEdit_of_invalid todos k input (by simpa using hv)]
      exact h
  | toggle k =>
    show validTexts (toggleTodo todos k)
    intro t ht
    obtain ⟨j, hj, hje⟩ := List.mem_iff_getElem.mp ht
    have hj' : j < todos.length := by
      have := toggleTodo_length todos k
      omega
    rw [toggleTodo_getElem todos k j hj' hj] at hje
    subst hje
    split
    · exact h todos[j] (List.getElem_mem hj')
    · exact h todos[j] (List.getElem_mem hj')
  | delete k =>
    intro t ht
    exact h t ((removeTodo_sublist todos k).subset ht)

theorem validTexts_run_from (ops : List Op) (todos : List Todo)
    (h : validTexts todos) : validTexts (ops.foldl applyOp todos) := by
  induction ops generalizing todos with
  | nil => exact h
  | cons op ops ih =>
    rw [List.foldl_cons]
    exact ih (applyOp todos op) (validTexts_applyOp todos op h)

theorem isDuplicate_eq_false_of_forall_mem (todos : List Todo) (text : List Char)
    (k : Int) (h : ∀ t ∈ todos, lower t.text ≠ lower text) :
    isDuplicate todos text k = false := by
  rw [isDuplicate_eq_false_iff]
  intro j hj _
  exact h _ (List.getElem_mem hj)

theorem isDuplicate_eq_true_of_mem (todos : List Todo) (text : List Char)
    (h : ∃ t ∈ todos, lower t.text = lower text) :
    isDuplicate todos text (-1) = true := by
  obtain ⟨t, ht, heq⟩ := h
  obtain ⟨j, hj, rfl⟩ := List.mem_iff_getElem.mp ht
  by_contra hc
  rw [Bool.not_eq_true] at hc
  exact (isDuplicate_eq_false_iff todos text (-1)).mp hc j hj (by omega) heq

theorem isDuplicate_eq_true_of_exists (todos : List Todo) (text : List Char)
    (k : Int)
    (h : ∃ j : Fin todos.length, ((j : Nat) : Int) ≠ k ∧
      lower (todos.get j).text = lower text) :
    isDuplicate todos text k = true := by
  obtain ⟨j, hjk, heq⟩ := h
  by_contra hc
  rw [Bool.not_eq_true] at hc
  exact (isDuplicate_eq_false_iff todos text k).mp hc j j.2 hjk heq

theorem addTodo_fst (todos : List Todo) (input : List Char) :
    (addTodo todos input).1 = validateAndFormatText todos input (-1) := by
  by_cases h : (validateAndFormatText todos input (-1)).isValid = true
  · rw [addTodo_of_valid todos input h]
  · rw [addTodo_of_invalid todos input (by simpa using h)]

theorem saveEdit_fst (todos : List Todo) (k : Int) (input : List Char) :
    (saveEdit todos k input).1 = validateAndFormatText todos input k := by
  by_cases h : (validateAndFormatText todos input k).isValid = true
  · rw [saveEdit_of_valid todos k input h]
  · rw [saveEdit_of_invalid todos k input (by simpa using h)]

/-! ## The claims -/

/-- C1: for every raw input whose trimmed form is non-empty, consists
only of characters in `[A-Za-z0-9 ]`, and whose normalized form (first
character upper-cased, remainder lower-cased) is not already present
case-insensitively, `addTodo` succeeds and appends exactly one item
`{ text := normalized, completed := false }` at the end, altering no
existing item. -/
theorem C1_add_appends_normalized (todos : List Todo) (input : List Char)
    (h1 : trim input ≠ [])
    (h2 : ∀ c ∈ trim input, isSpecAllowed c = true)
    (h3 : ∀ t ∈ todos, lower t.text ≠ lower (formatText (trim input))) :
    (addTodo todos input).1.isValid = true ∧
    (addTodo todos input).2 = todos ++ [⟨formatText (trim input), false⟩] := by
  have hall : ∀ c ∈ trim input, allowedChar c = true :=
    fun c hc => specAllowed_allowed c (h2 c hc)
  have h2' : hasInvalidChar (trim input) = false :=
    (hasInvalidChar_eq_false_iff _).mpr hall
  have hstrip : stripInvalid (trim input) = trim input := stripInvalid_of_allowed _ hall
  have h3' : isDuplicate todos (formatText (stripInvalid (trim input))) (-1) = false := by
    rw [hstrip]
    exact isDuplicate_eq_false_of_forall_mem todos _ (-1) h3
  have hv := validate_success todos input (-1) h1 h2' h3'
  have hvalid : (validateAndFormatText todos input (-1)).isValid = true := by rw [hv]
  rw [addTodo_of_valid todos input hvalid]
  refine ⟨by rw [hv], ?_⟩
  rw [hv, hstrip]

/-- Witness for C1 at the input `"heLLo 42"` on the empty collection. -/
theorem C1_witness :
    (addTodo [] ['h', 'e', 'L', 'L', 'o', ' ', '4', '2']).1.isValid = true ∧
    (addTodo [] ['h', 'e', 'L', 'L', 'o', ' ', '4', '2']).2
      = [⟨['H', 'e', 'l', 'l', 'o', ' ', '4', '2'], false⟩] := by
  have h := C1_add_appends_normalized [] ['h', 'e', 'L', 'L', 'o', ' ', '4', '2']
    (by decide) (by decide) (by decide)
  exact ⟨h.1, h.2.trans (by decide)⟩

/-- C2 as stated is false on the code: the input `"a<TAB>b"` trims to
itself, contains a tab — a character outside `[A-Za-z0-9 ]` — yet
`addTodo` accepts it, because the source's regex class is
`[^a-zA-Z0-9\s]` and `\s` matches the tab. -/
theorem C2_counterexample :
    '\t' ∈ trim ['a', '\t', 'b'] ∧ isSpecAllowed '\t' = false ∧
    (addTodo [] ['a', '\t', 'b']).1.isValid = true ∧
    (addTodo [] ['a', '\t', 'b']).2 = [⟨['A', '\t', 'b'], false⟩] := by decide

/-- C2 amended: if the input trims to the empty string, `addTodo` fails
with the `Empty` message; otherwise, if the trimmed input contains any
character outside letters, digits, and JavaScript whitespace (the regex
class `[a-zA-Z0-9\s]`, which admits interior tabs and newlines), it
fails with the `InvalidCharacters` message; in both failure cases the
collection is not mutated. -/
theorem C2_amended_failures (todos : List Todo) (input : List Char)
    (h : trim input = [] ∨ hasInvalidChar (trim input) = true) :
    (addTodo todos input).1.isValid = false ∧
    (addTodo todos input).2 = todos ∧
    (addTodo todos input).1.message
      = (if trim input = [] then emptyMessage else invalidCharactersMessage) := by
  by_cases h1 : trim input = []
  · have hv := validate_empty todos input (-1) h1
    rw [addTodo_of_invalid todos input (by rw [hv])]
    refine ⟨by rw [hv], rfl, ?_⟩
    rw [hv, if_pos h1]
  · have h2 : hasInvalidChar (trim input) = true := by
      rcases h with h | h
      · exact absurd h h1
      · exact h
    have hv := validate_invalidChars todos input (-1) h1 h2
    rw [addTodo_of_invalid todos input (by rw [hv])]
    refine ⟨by rw [hv], rfl, ?_⟩
    rw [hv, if_neg h1]

/-- Witness for the amended C2 at the inputs `"!!!"` (invalid
characters) on the empty collection. -/
theorem C2_amended_witness :
    (addTodo [] ['!', '!', '!']).1.isValid = false ∧
    (addTodo [] ['!', '!', '!']).2 = [] ∧
    (addTodo [] ['!', '!', '!']).1.message
      = (if trim ['!', '!', '!'] = [] then emptyMessage else invalidCharactersMessage) :=
  C2_amended_failures [] ['!', '!', '!'] (Or.inr (by decide))

/-- C3: for every state and raw input that passes the emptiness and
character checks, if the formatted text case-insensitively equals the
text of some existing item then `addTodo` fails with the duplicate
message and leaves the collection unchanged; if it equals no existing
item's text, `addTodo` succeeds and in particular does not report a
duplicate. -/
theorem C3_duplicate_detection (todos : List Todo) (input : List Char)
    (h1 : trim input ≠ []) (h2 : hasInvalidChar (trim input) = false) :
    ((∃ t ∈ todos,
        lower t.text = lower (formatText (stripInvalid (trim input)))) →
      (addTodo todos input).1.isValid = false ∧
      (addTodo todos input).1.message = duplicateItemMessage ∧
      (addTodo todos input).2 = todos) ∧
    ((¬ ∃ t ∈ todos,
        lower t.text = lower (formatText (stripInvalid (trim input)))) →
      (addTodo todos input).1.isValid = true ∧
      (addTodo todos input).1.message ≠ duplicateItemMessage) := by
  constructor
  · intro hdup
    have h3 := isDuplicate_eq_true_of_mem todos _ hdup
    have hv := validate_dup todos input (-1) h1 h2 h3
    rw [addTodo_of_invalid todos input (by rw [hv])]
    exact ⟨by rw [hv], by rw [hv], rfl⟩
  · intro hdup
    have h3 : isDuplicate todos (formatText (stripInvalid (trim input))) (-1) = false :=
      isDuplicate_eq_false_of_forall_mem todos _ (-1)
        (fun t ht heq => hdup ⟨t, ht, heq⟩)
    have hv := validate_success todos input (-1) h1 h2 h3
    rw [addTodo_of_valid todos input (by rw [hv])]
    refine ⟨by rw [hv], ?_⟩
    rw [hv]
    show ("" : String) ≠ duplicateItemMessage
    decide

/-- Witness for C3: adding `"task"` and then `"TASK"` fails with the
duplicate message and leaves the collection at size 1. -/
theorem C3_witness :
    (addTodo (addTodo [] ['t', 'a', 's', 'k']).2 ['T', 'A', 'S', 'K']).1.message
      = duplicateItemMessage ∧
    (addTodo (addTodo [] ['t', 'a', 's', 'k']).2 ['T', 'A', 'S', 'K']).2.length = 1 := by
  have h := C3_duplicate_detection (addTodo [] ['t', 'a', 's', 'k']).2
    ['T', 'A', 'S', 'K'] (by decide) (by decide)
  have hd := h.1 (by decide)
  refine ⟨hd.2.1, ?_⟩
  rw [hd.2.2]
  decide

/-- C4: in every state reachable from the empty collection by add,
edit, toggle and delete operations, no two items have text equal under
case-insensitive comparison. -/
theorem C4_no_case_insensitive_duplicates (ops : List Op) :
    distinctTexts (run ops) :=
  distinctTexts_run_from ops [] List.Pairwise.nil

/-- C5 as stated is false on the code: one `add` of `"a<TAB>b"` from
the empty collection yields an item whose text contains a tab, a
character outside `[A-Za-z0-9 ]`. -/
theorem C5_counterexample :
    ¬ specValidTexts (run [Op.add ['a', '\t', 'b']]) := by decide

/-- C5 amended: in every reachable state, every item's text is
non-empty and contains only ASCII alphanumerics and JavaScript
whitespace characters (the code's class `[a-zA-Z0-9\s]`; interior tabs
and newlines can occur, other characters cannot). -/
theorem C5_amended_valid_texts (ops : List Op) :
    validTexts (run ops) :=
  validTexts_run_from ops [] (fun t ht => absurd ht (List.not_mem_nil t))

/-- C6: for a valid index `i` and input passing the emptiness and
character checks: if the formatted text case-insensitively collides
with the text of an item other than `i`, `saveEdit` fails with the
duplicate message and leaves the collection unchanged; if the
duplicate check excluding `i` is clear, the edit succeeds, replaces
item `i`'s text by the formatted value keeping its completed flag, and
touches no other item; and editing item `i` to text whose formatted
form case-insensitively equals item `i`'s own current text succeeds
(self-exclusion), given the no-duplicates invariant. -/
theorem C6_edit_duplicates_and_self_exclusion (todos : List Todo) (i : Nat)
    (hi : i < todos.length) (input : List Char)
    (h1 : trim input ≠ []) (h2 : hasInvalidChar (trim input) = false) :
    ((∃ j : Fin todos.length, (j : Nat) ≠ i ∧
        lower (todos.get j).text
          = lower (formatText (stripInvalid (trim input)))) →
      (saveEdit todos (i : Int) input).1.isValid = false ∧
      (saveEdit todos (i : Int) input).1.message = duplicateItemMessage ∧
      (saveEdit todos (i : Int) input).2 = todos) ∧
    (isDuplicate todos (formatText (stripInvalid (trim input))) (i : Int) = false →
      (saveEdit todos (i : Int) input).1.isValid = true ∧
      (saveEdit todos (i : Int) input).2[i]?
        = some ⟨formatText (stripInvalid (trim input)),
                (todos.get ⟨i, hi⟩).completed⟩ ∧
      ∀ j : Nat, j ≠ i → (saveEdit todos (i : Int) input).2[j]? = todos[j]?) ∧
    (lower (formatText (stripInvalid (trim input)))
        = lower (todos.get ⟨i, hi⟩).text →
      distinctTexts todos →
      (saveEdit todos (i : Int) input).1.isValid = true) := by
  refine ⟨?_, ?_, ?_⟩
  · intro hdup
    have h3 : isDuplicate todos (formatText (stripInvalid (trim input))) (i : Int)
        = true := by
      obtain ⟨j, hji, heq⟩ := hdup
      refine isDuplicate_eq_true_of_exists todos _ (i : Int) ⟨j, ?_, heq⟩
      exact_mod_cast hji
    have hv := validate_dup todos input (i : Int) h1 h2 h3
    rw [saveEdit_of_invalid todos (i : Int) input (by rw [hv])]
    exact ⟨by rw [hv], by rw [hv], rfl⟩
  · intro h3
    have hv := validate_success todos input (i : Int) h1 h2 h3
    rw [saveEdit_of_valid todos (i : Int) input (by rw [hv])]
    refine ⟨by rw [hv], ?_, ?_⟩
    · rw [hv]
      rw [editList_getElem?]
      rw [List.getElem?_eq_getElem hi]
      simp
    · intro j hji
      rw [hv]
      rw [editList_getElem?]
      have hne : ¬((j : Int) = (i : Int)) := by exact_mod_cast hji
      cases todos[j]? <;> simp [hne]
  · intro hself hdt
    have h3 : isDuplicate todos (formatText (stripInvalid (trim input))) (i : Int)
        = false := by
      rw [isDuplicate_eq_false_iff]
      intro j hj hjk heq
      have hji : j ≠ i := by
        intro hc
        exact hjk (by exact_mod_cast hc)
      have hpw := List.pairwise_iff_getElem.mp hdt
      have heqi : lower (todos.get ⟨j, hj⟩).text = lower (todos.get ⟨i, hi⟩).text :=
        heq.trans hself
      rcases Nat.lt_or_ge j i with hlt | hge
      · exact hpw j i hj hi hlt heqi
      · have hlt : i < j := by omega
        exact hpw i j hi hj hlt heqi.symm
    have hv := validate_success todos input (i : Int) h1 h2 h3
    rw [saveEdit_fst, hv]

/-- Witness for C6: editing the single item `"Task"` to `"task "`
(same text up to case and trailing space) succeeds by self-exclusion. -/
theorem C6_witness :
    (saveEdit [⟨['T', 'a', 's', 'k'], false⟩] (0 : Int)
      ['t', 'a', 's', 'k', ' ']).1.isValid = true := by
  have h := C6_edit_duplicates_and_self_exclusion [⟨['T', 'a', 's', 'k'], false⟩] 0
    (by decide) ['t', 'a', 's', 'k', ' '] (by decide) (by decide)
  exact h.2.2 (by decide) (by decide)

/-- C7 as stated is false on the code: no `IndexOutOfRange` failure
exists anywhere in the component.  At the out-of-range index 5 on a
one-item collection, `saveEdit` reports a successful validation
(`isValid = true`, no error of any kind) while silently changing
nothing, and `toggleTodo` and `removeTodo` (which return no status at
all) also leave the collection unchanged rather than failing. -/
theorem C7_counterexample :
    (saveEdit [⟨['T', 'a', 's', 'k'], false⟩] (5 : Int) ['N', 'e', 'w']).1.isValid
      = true ∧
    (saveEdit [⟨['T', 'a', 's', 'k'], false⟩] (5 : Int) ['N', 'e', 'w']).2
      = [⟨['T', 'a', 's', 'k'], false⟩] ∧
    toggleTodo [⟨['T', 'a', 's', 'k'], false⟩] (5 : Int)
      = [⟨['T', 'a', 's', 'k'], false⟩] ∧
    removeTodo [⟨['T', 'a', 's', 'k'], false⟩] (5 : Int)
      = [⟨['T', 'a', 's', 'k'], false⟩] := by decide

/-- C7 amended: for every index that refers to no existing item
(negative or at least the collection length), `toggleTodo`,
`removeTodo` and `saveEdit` leave the collection unchanged; no
`IndexOutOfRange` error is raised because none exists in the code
(edit may still report a validation failure of the text itself, but
the collection is untouched either way). -/
theorem C7_amended_out_of_range_noop (todos : List Todo) (k : Int)
    (input : List Char) (h : k < 0 ∨ (todos.length : Int) ≤ k) :
    toggleTodo todos k = todos ∧
    removeTodo todos k = todos ∧
    (saveEdit todos k input).2 = todos := by
  refine ⟨toggleTodo_oor todos k h, removeTodo_oor todos k h, ?_⟩
  by_cases hv : (validateAndFormatText todos input k).isValid = true
  · rw [saveEdit_of_valid todos k input hv]
    exact editList_oor todos k _ h
  · rw [saveEdit_of_invalid todos k input (by simpa using hv)]

/-- Witness for the amended C7 at index 5 on a one-item collection. -/
theorem C7_amended_witness :
    toggleTodo [⟨['A'], false⟩] (5 : Int) = [⟨['A'], false⟩] ∧
    removeTodo [⟨['A'], false⟩] (5 : Int) = [⟨['A'], false⟩] ∧
    (saveEdit [⟨['A'], false⟩] (5 : Int) ['B']).2 = [⟨['A'], false⟩] :=
  C7_amended_out_of_range_noop [⟨['A'], false⟩] 5 ['B'] (Or.inr (by decide))

/-- C8: for every valid index `i`, `toggleTodo` (which has no failure
path at all) flips exactly item `i`'s completed flag, keeps its text,
leaves every other item unchanged, and is an involution. -/
theorem C8_toggle_involution (todos : List Todo) (i : Nat)
    (hi : i < todos.length) :
    (toggleTodo todos (i : Int)).length = todos.length ∧
    (toggleTodo todos (i : Int))[i]?
      = some ⟨(todos.get ⟨i, hi⟩).text, !(todos.get ⟨i, hi⟩).completed⟩ ∧
    (∀ j : Nat, j ≠ i → (toggleTodo todos (i : Int))[j]? = todos[j]?) ∧
    toggleTodo (toggleTodo todos (i : Int)) (i : Int) = todos := by
  refine ⟨toggleTodo_length todos (i : Int), ?_, ?_, ?_⟩
  · rw [toggleTodo_getElem?, List.getElem?_eq_getElem hi]
    simp
  · intro j hji
    rw [toggleTodo_getElem?]
    have hne : ¬((j : Int) = (i : Int)) := by exact_mod_cast hji
    cases todos[j]? <;> simp [hne]
  · apply List.ext_getElem?
    intro j
    rw [toggleTodo_getElem?, toggleTodo_getElem?]
    cases todos[j]? with
    | none => rfl
    | some t =>
      by_cases hji : (j : Int) = (i : Int)
      · simp [hji]
      · simp [hji]

/-- Witness for C8 at index 0 on a one-item collection. -/
theorem C8_witness :
    toggleTodo (toggleTodo [⟨['H', 'i'], false⟩] (0 : Int)) (0 : Int)
      = [⟨['H', 'i'], false⟩] ∧
    (toggleTodo [⟨['H', 'i'], false⟩] (0 : Int))[0]? = some ⟨['H', 'i'], true⟩ := by
  have h := C8_toggle_involution [⟨['H', 'i'], false⟩] 0 (by decide)
  exact ⟨h.2.2.2, h.2.1.trans (by decide)⟩

/-- C9: for every valid index `i`, `removeTodo` removes exactly the
item at position `i` (length drops by one, earlier items keep their
positions, later items shift down by one), and `getIncompleteTodos` /
`getCompletedTodos` partition the collection with no overlap and no
omission, each a sublist of it (hence order-preserving) and neither
mutating it. -/
theorem C9_delete_and_partition (todos : List Todo) (i : Nat)
    (hi : i < todos.length) :
    (removeTodo todos (i : Int)).length + 1 = todos.length ∧
    (∀ j : Nat, j < i → (removeTodo todos (i : Int))[j]? = todos[j]?) ∧
    (∀ j : Nat, i ≤ j → (removeTodo todos (i : Int))[j]? = todos[j + 1]?) ∧
    List.Perm (getIncompleteTodos todos ++ getCompletedTodos todos) todos ∧
    List.Sublist (getIncompleteTodos todos) todos ∧
    List.Sublist (getCompletedTodos todos) todos ∧
    (∀ t ∈ getIncompleteTodos todos, t.completed = false) ∧
    (∀ t ∈ getCompletedTodos todos, t.completed = true) := by
  have hre := removeTodo_eq todos i
  have htl : (todos.take i).length = i := by
    rw [List.length_take]
    omega
  refine ⟨?_, ?_, ?_, ?_, List.filter_sublist todos, List.filter_sublist todos,
    ?_, ?_⟩
  · rw [hre]
    rw [List.length_append, htl, List.length_drop]
    omega
  · intro j hj
    rw [hre, List.getElem?_append_left (by omega)]
    rw [List.getElem?_take]
    rw [if_pos hj]
  · intro j hij
    rw [hre, List.getElem?_append_right (by rw [htl]; exact hij)]
    rw [htl, List.getElem?_drop]
    rw [show i + 1 + (j - i) = j + 1 by omega]
  · have hp := List.filter_append_perm (fun t : Todo => !t.completed) todos
    simpa [getIncompleteTodos, getCompletedTodos, Bool.not_not] using hp
  · intro t ht
    have := (List.mem_filter.mp ht).2
    simpa using this
  · intro t ht
    exact (List.mem_filter.mp ht).2

/-- Witness for C9 at index 0 on a two-item collection with one
completed item. -/
theorem C9_witness :
    (removeTodo [⟨['A'], false⟩, ⟨['B'], true⟩] (0 : Int)).length + 1 = 2 ∧
    List.Perm
      (getIncompleteTodos [⟨['A'], false⟩, ⟨['B'], true⟩]
        ++ getCompletedTodos [⟨['A'], false⟩, ⟨['B'], true⟩])
      [⟨['A'], false⟩, ⟨['B'], true⟩] := by
  have h := C9_delete_and_partition [⟨['A'], false⟩, ⟨['B'], true⟩] 0 (by decide)
  exact ⟨h.1, h.2.2.2.1⟩

/-- C10 (frame effects): toggling a valid index `i` and a successful
edit at `i` keep the collection length and leave every item at an
index other than `i` wholly unchanged, and a successful add only
appends, leaving every pre-existing item in place. -/
theorem C10_frame_effects (todos : List Todo) (i : Nat) (_hi : i < todos.length)
    (editInput addInput : List Char) :
    (toggleTodo todos (i : Int)).length = todos.length ∧
    (∀ j : Nat, j ≠ i → (toggleTodo todos (i : Int))[j]? = todos[j]?) ∧
    ((saveEdit todos (i : Int) editInput).1.isValid = true →
      (saveEdit todos (i : Int) editInput).2.length = todos.length ∧
      ∀ j : Nat, j ≠ i →
        (saveEdit todos (i : Int) editInput).2[j]? = todos[j]?) ∧
    ((addTodo todos addInput).1.isValid = true →
      (addTodo todos addInput).2
        = todos ++ [⟨(addTodo todos addInput).1.formattedText, false⟩]) := by
  refine ⟨toggleTodo_length todos (i : Int), ?_, ?_, ?_⟩
  · intro j hji
    rw [toggleTodo_getElem?]
    have hne : ¬((j : Int) = (i : Int)) := by exact_mod_cast hji
    cases todos[j]? <;> simp [hne]
  · intro hv
    have hv' : (validateAndFormatText todos editInput (i : Int)).isValid = true := by
      rw [← saveEdit_fst]
      exact hv
    rw [saveEdit_of_valid todos (i : Int) editInput hv']
    refine ⟨by simp, ?_⟩
    intro j hji
    dsimp only
    rw [editList_getElem?]
    have hne : ¬((j : Int) = (i : Int)) := by exact_mod_cast hji
    cases todos[j]? <;> simp [hne]
  · intro hv
    have hv' : (validateAndFormatText todos addInput (-1)).isValid = true := by
      rw [← addTodo_fst]
      exact hv
    rw [addTodo_of_valid todos addInput hv']

/-- Witness for C10 at index 0 on a two-item collection, with edit
input `"c"` and add input `"d"`. -/
theorem C10_witness :
    (toggleTodo [⟨['A'], false⟩, ⟨['B'], false⟩] (0 : Int)).length = 2 ∧
    (toggleTodo [⟨['A'], false⟩, ⟨['B'], false⟩] (0 : Int))[1]?
      = some ⟨['B'], false⟩ ∧
    (saveEdit [⟨['A'], false⟩, ⟨['B'], false⟩] (0 : Int) ['c']).2[1]?
      = some ⟨['B'], false⟩ ∧
    (addTodo [⟨['A'], false⟩, ⟨['B'], false⟩] ['d']).2
      = [⟨['A'], false⟩, ⟨['B'], false⟩]
        ++ [⟨(addTodo [⟨['A'], false⟩, ⟨['B'], false⟩] ['d']).1.formattedText,
             false⟩] := by
  have h := C10_frame_effects [⟨['A'], false⟩, ⟨['B'], false⟩] 0 (by decide)
    ['c'] ['d']
  exact ⟨h.1.trans (by decide), (h.2.1 1 (by decide)).trans (by decide),
    ((h.2.2.1 (by decide)).2 1 (by decide)).trans (by decide),
    h.2.2.2 (by decide)⟩

end TodoList
